import Mathlib

/-!
Verification development for the NTRIP relay client connection actor
(`connection.cpp`). The connection state machine, its header/status parser,
its chunked-transfer decoder and its timeout supervisor are shallowly
embedded: byte buffers are `List Nat` (byte values), the asynchronous
reactor is an adversarial stream of completion events, and each completion
handler of the source is translated into a Lean function from connection
state and event to the successor state plus the list of observable outputs
(consumer callbacks, socket shutdown, timer re-arms).
-/

set_option maxHeartbeats 1000000

/-- Error classification carried by a completion, mirroring
`boost::system::error_code` as the code distinguishes it: success,
`operation_aborted`, `eof`, the three Caster-category codes
(`resolveError`, `invalidStatus`, `connectionTimeout`) and any other
transport error. -/
inductive Err : Type where
  | ok : Err
  | operationAborted : Err
  | eofErr : Err
  | resolveError : Err
  | invalidStatus : Err
  | connectionTimeout : Err
  | other : Nat → Err
deriving DecidableEq, Repr

/-- Observable outputs of one handler invocation: a timer (re-)arm, the four
consumer callbacks, and the socket shutdown performed by `m_shutdown`. -/
inductive Out : Type where
  | rearmTimer : Out
  | dataOut : List Nat → Out
  | eofOut : Out
  | errOut : Err → Out
  | headersOut : Out
  | shutdownOut : Out
deriving DecidableEq, Repr

/-- Which completion handler the single outstanding (non-timer) asynchronous
operation is bound to; `chunkDataH n` carries the `size` argument bound into
`m_handleReadChunkData`, `connectH n` the number of resolver endpoints not
yet tried after the current attempt. -/
inductive PH : Type where
  | resolveH : PH
  | connectH : Nat → PH
  | writeReqH : PH
  | readStatusH : PH
  | readHeadersH : PH
  | readDataH : PH
  | chunkLenH : PH
  | chunkDataH : Nat → PH
deriving DecidableEq, Repr

/-- A completion delivered by the reactor: resolver result (with the number
of endpoints), connect result, request-write result, data-write result
(`m_handleWriteData`), a read completion carrying the bytes newly appended
to the response buffer, or a timer firing (whose `deadlineMoved` flag tells
whether `expires_at()` is still in the future at delivery time). -/
inductive Event : Type where
  | resolved : Err → Nat → Event
  | connected : Err → Event
  | wrote : Err → Event
  | wroteData : Err → Event
  | readDone : Err → List Nat → Event
  | timerFired : Err → Bool → Event
deriving DecidableEq, Repr

/-- Connection state: the pending handler, the response byte queue, the
header mapping, the `m_chunked` / `m_active` flags, whether the terminal
shutdown path has run (`closedF`), whether the socket is open, whether a
header-parsing exception escaped (`crashed`), the configured timeout, the
`transfer_at_least` bound of the pending read (`reqAtLeast`), and which of
the four optional callback slots are registered. -/
structure CState : Type where
  pending : Option PH
  buffer : List Nat
  headers : List (List Nat × List Nat)
  chunked : Bool
  active : Bool
  closedF : Bool
  socketOpen : Bool
  crashed : Bool
  mtimeout : Nat
  reqAtLeast : Option Nat
  hasData : Bool
  hasEof : Bool
  hasErr : Bool
  hasHeaders : Bool
deriving DecidableEq, Repr

/-! ## String utilities (anonymous namespace of connection.cpp)

C++ `std::string` positions are `size_t` values; `std::string::npos` is
`2^64 - 1` and arithmetic on positions wraps modulo `2^64`.  `substr(pos,
cnt)` throws `std::out_of_range` when `pos` exceeds the string length, which
the embedding models as `none`. -/

/-- Width of `size_t`. -/
def two64 : Nat := 2 ^ 64

/-- Byte-level model of `std::string::npos`. -/
def npos : Nat := two64 - 1

/-- Model of `find_first_not_of`: position of the first byte not in `bad`,
`npos` when every byte is in `bad`. -/
def ffno (s : List Nat) (bad : List Nat) : Nat :=
  match s.findIdx? (fun c => !(bad.contains c)) with
  | some i => i
  | none => npos

/-- Model of `find_last_not_of(..., npos, 4)`: position of the last byte not
in `bad`, `npos` when every byte is in `bad`. -/
def flno (s : List Nat) (bad : List Nat) : Nat :=
  match s.reverse.findIdx? (fun c => !(bad.contains c)) with
  | some i => s.length - 1 - i
  | none => npos

/-- Model of `std::string::substr(pos, cnt)`: `none` models the
`std::out_of_range` exception thrown when `pos > size()`. -/
def substrC (s : List Nat) (pos cnt : Nat) : Option (List Nat) :=
  if pos ≤ s.length then some ((s.drop pos).take cnt) else none

/-- Embedding of `splitString` (connection.cpp:458-467): split `src` at the
first occurrence of `delim`; when the delimiter is absent, the pair is the
whole string and the empty string. -/
def splitString (src : List Nat) (delim : Nat) : List Nat × List Nat :=
  match src.findIdx? (fun c => c == delim) with
  | some pos => (src.take pos, src.drop (pos + 1))
  | none => (src, [])

/-- Embedding of `trimStringPair` (connection.cpp:469-475): trim the value
of the pair using `find_first_not_of(" \t")` and
`find_last_not_of(" \t\r\n", npos, 4)`, then take
`substr(lpos, rpos - lpos + 1)` with `size_t` wrap-around arithmetic.
Result `none` models the `std::out_of_range` exception from `substr`. -/
def trimStringPair (p : List Nat × List Nat) : Option (List Nat × List Nat) :=
  let l := ffno p.2 [32, 9]
  let r := flno p.2 [32, 9, 13, 10]
  match substrC p.2 l ((r + (two64 - l) + 1) % two64) with
  | some v => some (p.1, v)
  | none => none

/-! ## Header block parsing (m_handleReadHeaders loop) -/

/-- Split a byte list at the first newline (`\n` = 10): the line before it
(with any `\r` retained, as `std::getline` leaves it) and, when a newline
was present, the bytes after it. -/
def splitAtNL : List Nat → List Nat × Option (List Nat)
  | [] => ([], none)
  | c :: cs =>
    if c = 10 then ([], some cs)
    else
      let r := splitAtNL cs
      (c :: r.1, r.2)

/-- Byte constant for the header name `Transfer-Encoding`. -/
def teBytes : List Nat :=
  [84, 114, 97, 110, 115, 102, 101, 114, 45, 69, 110, 99, 111, 100, 105, 110, 103]

/-- Byte constant for the header value `chunked`. -/
def chunkedBytes : List Nat := [99, 104, 117, 110, 107, 101, 100]

/-- Embedding of the `while (std::getline(headersStream, header) && header != "\r")`
loop of `m_handleReadHeaders` (connection.cpp:247-255): read lines up to the
line consisting solely of a carriage return, split each at the first colon,
trim, insert into the header mapping, and set the chunked flag on an exact
`Transfer-Encoding: chunked` match.  `none` models the `std::out_of_range`
exception escaping from `trimStringPair`; otherwise the result is the
extended mapping, the chunked flag, and the bytes remaining in the queue
after the terminator line. -/
def headersLoopAux (hs : List (List Nat × List Nat)) (ch : Bool)
    (cur : List Nat) : List Nat → Option (List (List Nat × List Nat) × Bool × List Nat)
  | [] =>
    if cur = [] then some (hs, ch, [])
    else if cur = [13] then some (hs, ch, [])
    else
      match trimStringPair (splitString cur 58) with
      | none => none
      | some p => some (hs ++ [p], ch || (p.1 == teBytes && p.2 == chunkedBytes), [])
  | c :: rest =>
    if c = 10 then
      if cur = [13] then some (hs, ch, rest)
      else
        match trimStringPair (splitString cur 58) with
        | none => none
        | some p =>
          headersLoopAux (hs ++ [p]) (ch || (p.1 == teBytes && p.2 == chunkedBytes)) [] rest
    else headersLoopAux hs ch (cur ++ [c]) rest

/-- Entry point of the header-line loop: lines are the maximal
newline-separated segments of the queue, exactly as successive
`std::getline` calls extract them. -/
def headersLoop (hs : List (List Nat × List Nat)) (ch : Bool) (buf : List Nat) :
    Option (List (List Nat × List Nat) × Bool × List Nat) :=
  headersLoopAux hs ch [] buf

/-! ## Status line parsing (m_handleReadStatus) -/

/-- Whitespace as classified by `std::istream` token extraction. -/
def isWsB (c : Nat) : Bool :=
  c == 32 || c == 9 || c == 10 || c == 13 || c == 11 || c == 12

/-- Decimal digit test. -/
def isDigitB (c : Nat) : Bool := 48 ≤ c && c ≤ 57

/-- Bytes remaining after consuming through the first newline (`std::getline`
discarding the extracted line); everything is consumed when no newline is
present. -/
def dropThroughNL (b : List Nat) : List Nat :=
  match splitAtNL b with
  | (_, some r) => r
  | (_, none) => []

/-- Embedding of the status-line extraction of `m_handleReadStatus`
(connection.cpp:191-197): `statusStream >> proto >> code` followed by
`std::getline`.  Token extraction skips leading whitespace; a failed numeric
extraction stores 0 (C++11) and sets failbit, in which case the trailing
`getline` consumes nothing.  Returns the protocol token, the status code,
and the bytes left in the queue. -/
def parseStatus (buf : List Nat) : List Nat × Nat × List Nat :=
  let b1 := buf.dropWhile isWsB
  let proto := b1.takeWhile (fun c => !(isWsB c))
  let b2 := (b1.drop proto.length).dropWhile isWsB
  let digits := b2.takeWhile isDigitB
  let code := digits.foldl (fun a d => 10 * a + (d - 48)) 0
  let b3 := b2.drop digits.length
  let rest := if digits.isEmpty then b3 else dropThroughNL b3
  (proto, code, rest)

/-! ## Chunk-size line parsing and chunk encoding -/

/-- Hexadecimal digit test (both letter cases, as a hex parser accepts). -/
def isHexB (c : Nat) : Bool :=
  (48 ≤ c && c ≤ 57) || (97 ≤ c && c ≤ 102) || (65 ≤ c && c ≤ 70)

/-- Numeric value of a hexadecimal digit byte. -/
def hexVal (c : Nat) : Nat :=
  if c ≤ 57 then c - 48 else if c ≤ 70 then c - 55 else c - 87

/-- Lowercase hexadecimal digit byte for a value below 16. -/
def hexChar (d : Nat) : Nat := if d < 10 then 48 + d else 87 + d

/-- Little-endian base-16 digit values of `n`, with explicit fuel (the fuel
`n` itself is always sufficient). -/
def hexDigitsAux : Nat → Nat → List Nat
  | 0, _ => []
  | fuel + 1, n => if n = 0 then [] else (n % 16) :: hexDigitsAux fuel (n / 16)

/-- Little-endian base-16 digit values of `n`. -/
def hexDigitsLE (n : Nat) : List Nat := hexDigitsAux n n

/-- Hexadecimal byte rendering of `n` (most significant digit first), as a
chunk-size line shows it; `0` renders as `"0"`. -/
def toHexBytes (n : Nat) : List Nat :=
  if n = 0 then [48] else (hexDigitsLE n).reverse.map hexChar

/-- Modelled from the spec: the chunk-size line parser `Caster::parseChunkLength`
(declared in utils.h; its definition is not among the sources under
verification).  Per §6 of the spec, given a buffer beginning with a
hexadecimal length token followed by a line terminator it returns the count
of bytes consumed — the hex digits plus the two terminator bytes — and the
parsed integer length.  Malformed-input behaviour is collaborator-defined;
modelled here as consuming nothing and reporting length 0. -/
def parseChunkLength (buf : List Nat) : Nat × Nat :=
  let ds := buf.takeWhile isHexB
  match buf.drop ds.length with
  | 13 :: 10 :: _ => (ds.length + 2, ds.foldl (fun a c => 16 * a + hexVal c) 0)
  | _ => (0, 0)

/-- Wire encoding of one chunk: hexadecimal size line, payload, CRLF. -/
def encodeChunk (p : List Nat) : List Nat :=
  toHexBytes p.length ++ [13, 10] ++ p ++ [13, 10]

/-- Wire encoding of a well-formed chunked body: the chunks in order followed
by the zero-length terminating chunk line. -/
def encodeChunks (ps : List (List Nat)) : List Nat :=
  (ps.map encodeChunk).flatten ++ [48, 13, 10]

/-! ## Completion handlers (Connection member functions) -/

/-- Embedding of `Connection::restartTimer` (connection.cpp:447-454): a
no-op when the configured timeout is zero, otherwise the deadline is pushed
out and a fresh wait is armed (observable as a timer re-arm). -/
def restartT (s : CState) : List Out :=
  if s.mtimeout ≠ 0 then [Out.rearmTimer] else []

/-- Model of `if (m_errorCallback) m_errorCallback(e)`. -/
def emitErr (s : CState) (e : Err) : List Out :=
  if s.hasErr then [Out.errOut e] else []

/-- Model of `if (m_eofCallback) m_eofCallback()`. -/
def emitEof (s : CState) : List Out :=
  if s.hasEof then [Out.eofOut] else []

/-- Model of `if (m_dataCallback) m_dataCallback(b)`. -/
def emitData (s : CState) (b : List Nat) : List Out :=
  if s.hasData then [Out.dataOut b] else []

/-- Model of `if (m_headersCallback) m_headersCallback()`. -/
def emitHeaders (s : CState) : List Out :=
  if s.hasHeaders then [Out.headersOut] else []

/-- Embedding of `Connection::m_shutdown` (connection.cpp:412-420): clear
`m_active`, and when the socket is open shut it down and close it.  The
`closedF` marker records that the terminal shutdown path has run. -/
def mShutdown (s : CState) : CState × List Out :=
  let s1 := { s with active := false, closedF := true }
  if s.socketOpen then ({ s1 with socketOpen := false }, [Out.shutdownOut])
  else (s1, [])

/-- Embedding of `Connection::m_handleResolve` (connection.cpp:88-118):
restart the timer; on success with a non-end iterator begin the first
connect attempt (opening the socket), on an end iterator report
`resolveError` and shut down; on any error — including `operation_aborted`,
which this handler does not special-case — report it and shut down. -/
def handleResolve (s : CState) (err : Err) (n : Nat) : CState × List Out :=
  let o := restartT s
  if err = Err.ok then
    if n ≠ 0 then
      ({ s with pending := some (PH.connectH (n - 1)), socketOpen := true,
                reqAtLeast := none }, o)
    else
      let r := mShutdown { s with pending := none }
      (r.1, o ++ emitErr s Err.resolveError ++ r.2)
  else
    let r := mShutdown { s with pending := none }
    (r.1, o ++ emitErr s err ++ r.2)

/-- Embedding of `Connection::m_handleConnect` (connection.cpp:120-154):
restart the timer; on success send the request; on failure advance to the
next endpoint (re-attempting the connect) or, with the candidates exhausted,
report the error and shut down.  `operation_aborted` is not special-cased. -/
def handleConnect (s : CState) (err : Err) (rem : Nat) : CState × List Out :=
  let o := restartT s
  if err = Err.ok then
    ({ s with pending := some PH.writeReqH, reqAtLeast := none }, o)
  else if rem ≠ 0 then
    ({ s with pending := some (PH.connectH (rem - 1)), socketOpen := true }, o)
  else
    let r := mShutdown { s with pending := none }
    (r.1, o ++ emitErr s err ++ r.2)

/-- Embedding of `Connection::m_handleWriteRequest` (connection.cpp:156-175):
restart the timer; on success arm the status-line read; on
`operation_aborted` do nothing; on any other error report it and shut
down. -/
def handleWriteReq (s : CState) (err : Err) : CState × List Out :=
  let o := restartT s
  if err = Err.ok then
    ({ s with pending := some PH.readStatusH, reqAtLeast := none }, o)
  else if err = Err.operationAborted then
    ({ s with pending := none }, o)
  else
    let r := mShutdown { s with pending := none }
    (r.1, o ++ emitErr s err ++ r.2)

/-- Embedding of `Connection::m_handleWriteData` (connection.cpp:177-185):
restart the timer; report any error other than `operation_aborted` and shut
down.  The pending read chain is untouched. -/
def handleWriteData (s : CState) (err : Err) : CState × List Out :=
  let o := restartT s
  if err ≠ Err.ok ∧ err ≠ Err.operationAborted then
    let r := mShutdown s
    (r.1, o ++ emitErr s err ++ r.2)
  else (s, o)

/-- Embedding of `Connection::m_handleReadStatus` (connection.cpp:187-239),
invoked with the newly read bytes already appended to the buffer: parse
protocol token and status code; a code other than 200 reports
`invalidStatus` and shuts down; protocol token `ICY` marks the connection
active and goes straight to the plain body read; otherwise the header block
read is armed.  `operation_aborted` is swallowed. -/
def handleReadStatus (s : CState) (err : Err) : CState × List Out :=
  let o := restartT s
  if err = Err.ok then
    let pr := parseStatus s.buffer
    if pr.2.1 ≠ 200 then
      let r := mShutdown { s with pending := none, buffer := pr.2.2 }
      (r.1, o ++ emitErr s Err.invalidStatus ++ r.2)
    else if pr.1 = [73, 67, 89] then
      ({ s with active := true, pending := some PH.readDataH, buffer := pr.2.2,
                reqAtLeast := none }, o)
    else
      ({ s with pending := some PH.readHeadersH, buffer := pr.2.2,
                reqAtLeast := none }, o)
  else if err = Err.operationAborted then
    ({ s with pending := none }, o)
  else
    let r := mShutdown { s with pending := none }
    (r.1, o ++ emitErr s err ++ r.2)

/-- Embedding of `Connection::m_handleReadHeaders` (connection.cpp:241-286),
invoked with the new bytes already appended: run the header-line loop (a
`none` result models the escaping `std::out_of_range` exception, leaving the
process crashed), invoke the headers callback, mark the connection active,
and arm either the chunk-size-line read or the plain body read.
`operation_aborted` is swallowed. -/
def handleReadHeaders (s : CState) (err : Err) : CState × List Out :=
  let o := restartT s
  if err = Err.ok then
    match headersLoop s.headers s.chunked s.buffer with
    | none => ({ s with crashed := true, pending := none }, o)
    | some (hs, ch, rest) =>
      if ch then
        ({ s with headers := hs, chunked := ch, active := true, buffer := rest,
                  pending := some PH.chunkLenH, reqAtLeast := none },
         o ++ emitHeaders s)
      else
        ({ s with headers := hs, chunked := ch, active := true, buffer := rest,
                  pending := some PH.readDataH, reqAtLeast := none },
         o ++ emitHeaders s)
  else if err = Err.operationAborted then
    ({ s with pending := none }, o)
  else
    let r := mShutdown { s with pending := none }
    (r.1, o ++ emitErr s err ++ r.2)

/-- Embedding of `Connection::m_handleReadData` (connection.cpp:288-318),
invoked with the new bytes already appended: deliver and consume whatever is
buffered (regardless of the completion error), then re-arm a
`transfer_at_least(1)` read on success, invoke the end-of-stream callback
and shut down on `eof`, swallow `operation_aborted`, and report any other
error before shutting down. -/
def handleReadData (s : CState) (err : Err) : CState × List Out :=
  let o := restartT s
  let del := if s.buffer ≠ [] then emitData s s.buffer else []
  let s0 := if s.buffer ≠ [] then { s with buffer := ([] : List Nat) } else s
  if err = Err.ok then
    ({ s0 with pending := some PH.readDataH, reqAtLeast := some 1 }, o ++ del)
  else if err = Err.eofErr then
    let r := mShutdown { s0 with pending := none }
    (r.1, o ++ del ++ emitEof s ++ r.2)
  else if err = Err.operationAborted then
    ({ s0 with pending := none }, o ++ del)
  else
    let r := mShutdown { s0 with pending := none }
    (r.1, o ++ del ++ emitErr s err ++ r.2)

/-- Embedding of `Connection::m_handleReadChunkData` (connection.cpp:359-410),
invoked with the new bytes already appended and `size` the declared length
still expected: deliver the buffered bytes (all of them when fewer than
`size` are buffered, exactly `size` otherwise); then on success either
consume everything and arm a read for the shortfall `size + 2 - buffered`
re-entering this handler with `shortfall - 2`, or consume `size + 2` bytes
and return to the chunk-size-line read.  `eof` ends the stream,
`operation_aborted` is swallowed, other errors are reported. -/
def handleChunkData (s : CState) (err : Err) (size : Nat) : CState × List Out :=
  let o := restartT s
  let del :=
    if size > 0 then
      if size > s.buffer.length then emitData s s.buffer
      else emitData s (s.buffer.take size)
    else []
  if err = Err.ok then
    if size > s.buffer.length then
      let rem := size + 2 - s.buffer.length
      ({ s with buffer := ([] : List Nat), pending := some (PH.chunkDataH (rem - 2)),
                reqAtLeast := some rem }, o ++ del)
    else
      ({ s with buffer := s.buffer.drop (size + 2), pending := some PH.chunkLenH,
                reqAtLeast := none }, o ++ del)
  else if err = Err.eofErr then
    let r := mShutdown { s with pending := none }
    (r.1, o ++ del ++ emitEof s ++ r.2)
  else if err = Err.operationAborted then
    ({ s with pending := none }, o ++ del)
  else
    let r := mShutdown { s with pending := none }
    (r.1, o ++ del ++ emitErr s err ++ r.2)

/-- Embedding of `Connection::m_handleReadChunkLength` (connection.cpp:320-357),
invoked with the new bytes already appended: consume the chunk-size line via
`parseChunkLength`; length 0 signals end-of-stream (callback, then
shutdown); with fewer than `length + 2` bytes buffered a read for the
shortfall is armed, otherwise `m_handleReadChunkData` is entered
synchronously.  `eof` ends the stream, `operation_aborted` is swallowed,
other errors are reported. -/
def handleChunkLen (s : CState) (err : Err) : CState × List Out :=
  let o := restartT s
  if err = Err.ok then
    let pl := parseChunkLength s.buffer
    let s1 := { s with buffer := s.buffer.drop pl.1 }
    if pl.2 = 0 then
      let r := mShutdown { s1 with pending := none }
      (r.1, o ++ emitEof s ++ r.2)
    else if s1.buffer.length < pl.2 + 2 then
      ({ s1 with pending := some (PH.chunkDataH pl.2),
                 reqAtLeast := some (pl.2 + 2 - s1.buffer.length) }, o)
    else
      let r := handleChunkData s1 Err.ok pl.2
      (r.1, o ++ r.2)
  else if err = Err.eofErr then
    let r := mShutdown { s with pending := none }
    (r.1, o ++ emitEof s ++ r.2)
  else if err = Err.operationAborted then
    ({ s with pending := none }, o)
  else
    let r := mShutdown { s with pending := none }
    (r.1, o ++ emitErr s err ++ r.2)

/-- Embedding of `Connection::handleTimeout` (connection.cpp:422-445): a
cancelled wait or a closed socket is a no-op; otherwise, when the deadline
was moved into the future by a newer operation a fresh wait is re-armed —
and, the guard having no early return, control then falls through to the
timeout report: the error callback fires with `connectionTimeout` and the
connection is shut down on every non-cancelled firing with an open
socket. -/
def handleTimeout (s : CState) (err : Err) (moved : Bool) : CState × List Out :=
  if err = Err.operationAborted then (s, [])
  else if s.socketOpen = false then (s, [])
  else
    let o := if moved then [Out.rearmTimer] else []
    let r := mShutdown s
    (r.1, o ++ emitErr s Err.connectionTimeout ++ r.2)

/-- One reactor step: dispatch a delivered completion to the handler the
outstanding operation is bound to (after a crash the process runs no further
handlers).  Read completions append their bytes to the response buffer
before the handler body runs; a completion that does not match the pending
operation cannot occur in a real execution and is a no-op. -/
def step (s : CState) (e : Event) : CState × List Out :=
  if s.crashed then (s, [])
  else
    match e with
    | Event.resolved err n =>
      match s.pending with
      | some PH.resolveH => handleResolve s err n
      | _ => (s, [])
    | Event.connected err =>
      match s.pending with
      | some (PH.connectH rem) => handleConnect s err rem
      | _ => (s, [])
    | Event.wrote err =>
      match s.pending with
      | some PH.writeReqH => handleWriteReq s err
      | _ => (s, [])
    | Event.wroteData err => handleWriteData s err
    | Event.readDone err bytes =>
      match s.pending with
      | some PH.readStatusH =>
        handleReadStatus { s with buffer := s.buffer ++ bytes } err
      | some PH.readHeadersH =>
        handleReadHeaders { s with buffer := s.buffer ++ bytes } err
      | some PH.readDataH =>
        handleReadData { s with buffer := s.buffer ++ bytes } err
      | some PH.chunkLenH =>
        handleChunkLen { s with buffer := s.buffer ++ bytes } err
      | some (PH.chunkDataH size) =>
        handleChunkData { s with buffer := s.buffer ++ bytes } err size
      | _ => (s, [])
    | Event.timerFired err moved => handleTimeout s err moved

/-! ## Executions -/

/-- Outputs and final state of a sequence of reactor steps. -/
def runAll (s : CState) : List Event → List Out × CState
  | [] => ([], s)
  | e :: es =>
    let r := step s e
    let rr := runAll r.1 es
    (r.2 ++ rr.1, rr.2)

/-- Per-step output lists of a sequence of reactor steps. -/
def runStepsOuts (s : CState) : List Event → List (List Out)
  | [] => []
  | e :: es => (step s e).2 :: runStepsOuts (step s e).1 es

/-- Outputs accumulated up to and including the step on which the connection
first reaches the shutdown state (all outputs when it never does). -/
def runUntilClosed (s : CState) : List Event → List Out
  | [] => []
  | e :: es =>
    let r := step s e
    if r.1.closedF then r.2 else r.2 ++ runUntilClosed r.1 es

/-- Count of terminal callbacks (end-of-stream or error) in an output
list. -/
def tc (outs : List Out) : Nat :=
  outs.countP (fun o =>
    match o with
    | Out.eofOut => true
    | Out.errOut _ => true
    | _ => false)

/-! ## Hexadecimal round-trip lemmas -/

theorem hexVal_hexChar (d : Nat) (h : d < 16) : hexVal (hexChar d) = d := by
  simp only [hexVal, hexChar]
  split_ifs <;> omega

theorem isHexB_hexChar (d : Nat) (h : d < 16) : isHexB (hexChar d) = true := by
  simp only [isHexB, hexChar, Bool.or_eq_true, Bool.and_eq_true, decide_eq_true_eq]
  split_ifs <;> omega

theorem mem_hexDigitsAux (fuel : Nat) :
    ∀ (n d : Nat), d ∈ hexDigitsAux fuel n → d < 16 := by
  induction fuel with
  | zero => intro n d h; simp [hexDigitsAux] at h
  | succ f ih =>
    intro n d h
    by_cases hn : n = 0
    · simp [hexDigitsAux, hn] at h
    · simp only [hexDigitsAux, if_neg hn, List.mem_cons] at h
      rcases h with h | h
      · omega
      · exact ih (n / 16) d h

theorem mem_hexDigitsAux_mod (fuel n d : Nat) (h : d ∈ hexDigitsAux fuel n) :
    d < 16 := mem_hexDigitsAux fuel n d h

theorem hexDigitsAux_foldl (fuel : Nat) :
    ∀ (n a : Nat), n ≤ fuel →
      ((hexDigitsAux fuel n).reverse.map hexChar).foldl
          (fun acc c => 16 * acc + hexVal c) a
        = a * 16 ^ (hexDigitsAux fuel n).length + n := by
  induction fuel with
  | zero => intro n a h; interval_cases n; simp [hexDigitsAux]
  | succ f ih =>
    intro n a h
    by_cases hn : n = 0
    · simp [hexDigitsAux, hn]
    · have hdiv : n / 16 ≤ f := by
        have := Nat.div_lt_self (Nat.pos_of_ne_zero hn) (by norm_num : 1 < 16)
        omega
      have hmod : n % 16 < 16 := Nat.mod_lt _ (by norm_num)
      simp only [hexDigitsAux, if_neg hn, List.reverse_cons, List.map_append,
        List.map_cons, List.map_nil, List.foldl_append, List.foldl_cons,
        List.foldl_nil, List.length_cons]
      rw [ih (n / 16) a hdiv, hexVal_hexChar _ hmod]
      have : 16 * (a * 16 ^ (hexDigitsAux f (n / 16)).length + n / 16) + n % 16
          = a * (16 ^ (hexDigitsAux f (n / 16)).length * 16) + (16 * (n / 16) + n % 16) := by
        ring
      rw [this, Nat.pow_succ]
      congr 1
      omega

theorem toHexBytes_foldl (n : Nat) :
    (toHexBytes n).foldl (fun acc c => 16 * acc + hexVal c) 0 = n := by
  by_cases hn : n = 0
  · simp [toHexBytes, hn, hexVal]
  · simp only [toHexBytes, if_neg hn, hexDigitsLE]
    rw [hexDigitsAux_foldl n n 0 (le_refl n)]
    simp

theorem toHexBytes_all_hex (n : Nat) :
    ∀ c ∈ toHexBytes n, isHexB c = true := by
  intro c hc
  by_cases hn : n = 0
  · simp [toHexBytes, hn] at hc
    simp [hc, isHexB]
  · simp only [toHexBytes, if_neg hn, hexDigitsLE, List.mem_map,
      List.mem_reverse] at hc
    obtain ⟨d, hd, rfl⟩ := hc
    exact isHexB_hexChar d (mem_hexDigitsAux n n d hd)

theorem takeWhile_append_all (p : Nat → Bool) (xs ys : List Nat)
    (h : ∀ x ∈ xs, p x = true) :
    (xs ++ ys).takeWhile p = xs ++ ys.takeWhile p := by
  induction xs with
  | nil => simp
  | cons x xs ih =>
    simp only [List.cons_append, List.takeWhile_cons, h x (by simp)]
    rw [ih (fun x hx => h x (by simp [hx]))]
    simp

/-- The modelled chunk-size parser inverts the chunk-size encoding: on a
buffer that is a hex-rendered length, CRLF, and anything after, it consumes
the hex digits plus the terminator and returns the encoded length. -/
theorem parseChunkLength_encode (n : Nat) (rest : List Nat) :
    parseChunkLength (toHexBytes n ++ 13 :: 10 :: rest)
      = ((toHexBytes n).length + 2, n) := by
  have h1 : (toHexBytes n ++ 13 :: 10 :: rest).takeWhile isHexB = toHexBytes n := by
    rw [takeWhile_append_all isHexB _ _ (toHexBytes_all_hex n)]
    simp [List.takeWhile_cons, isHexB]
  simp only [parseChunkLength, h1, List.drop_left]
  simp [toHexBytes_foldl]

/-! ## The chunked-decoder loop on a well-formed stream -/

/-- Connection state awaiting a chunk-size line: chunked mode detected,
connection active, all callback slots registered, timeout disabled, and the
byte queue holding `b`. -/
def mkChunkState (b : List Nat) : CState :=
  { pending := some PH.chunkLenH, buffer := b, headers := [], chunked := true,
    active := true, closedF := false, socketOpen := true, crashed := false,
    mtimeout := 0, reqAtLeast := none,
    hasData := true, hasEof := true, hasErr := true, hasHeaders := true }

/-- A read completion delivering no new bytes (the delimiter was already
buffered, so `async_read_until` completes immediately). -/
def evE : Event := Event.readDone Err.ok []

/-- Terminal state after the zero-length chunk: shut down, inactive, byte
queue empty, no operation pending. -/
def chunkEndState : CState :=
  { pending := none, buffer := [], headers := [], chunked := true,
    active := false, closedF := true, socketOpen := false, crashed := false,
    mtimeout := 0, reqAtLeast := none,
    hasData := true, hasEof := true, hasErr := true, hasHeaders := true }

/-- Payload bytes of a data-callback output. -/
def dataPayload (o : Out) : Option (List Nat) :=
  match o with
  | Out.dataOut b => some b
  | _ => none

theorem chunkStep_term :
    step (mkChunkState [48, 13, 10]) evE = (chunkEndState, [Out.eofOut, Out.shutdownOut]) := by
  decide

theorem chunkStep_cons (p r : List Nat) (hp : p ≠ []) :
    step (mkChunkState (encodeChunk p ++ r)) evE = (mkChunkState r, [Out.dataOut p]) := by
  have hb : encodeChunk p ++ r
      = toHexBytes p.length ++ 13 :: 10 :: (p ++ 13 :: 10 :: r) := by
    simp [encodeChunk]
  have hlen : 0 < p.length := List.length_pos.mpr hp
  have hdrop : (toHexBytes p.length ++ 13 :: 10 :: (p ++ 13 :: 10 :: r)).drop
      ((toHexBytes p.length).length + 2)
      = p ++ 13 :: 10 :: r := by
    have : toHexBytes p.length ++ 13 :: 10 :: (p ++ 13 :: 10 :: r)
        = (toHexBytes p.length ++ [13, 10]) ++ (p ++ 13 :: 10 :: r) := by simp
    rw [this]
    exact List.drop_left' (by simp)
  have htake : (p ++ 13 :: 10 :: r).take p.length = p := by
    have : p ++ 13 :: 10 :: r = p ++ (13 :: 10 :: r) := rfl
    rw [this]
    exact List.take_left' rfl
  have hdrop2 : (p ++ 13 :: 10 :: r).drop (p.length + 2) = r := by
    have : p ++ 13 :: 10 :: r = (p ++ [13, 10]) ++ r := by simp
    rw [this]
    exact List.drop_left' (by simp)
  simp only [step, mkChunkState, evE]
  simp only [List.append_nil]
  rw [hb]
  simp only [handleChunkLen, restartT, parseChunkLength_encode, hdrop]
  simp only [handleChunkData, restartT, emitData]
  simp only [List.length_append, List.length_cons]
  have hne : ¬ (p.length = 0) := by omega
  have hguard : ¬ (p.length + (13 :: 10 :: r).length < p.length + 2) := by
    simp [List.length_cons]
  have hgt : ¬ (p.length > p.length + (13 :: 10 :: r).length) := by
    simp
  simp only [List.length_cons] at hguard hgt
  simp [hne, hguard, hgt, htake, hdrop2, hlen]

theorem runAll_cons (s : CState) (e : Event) (es : List Event) :
    runAll s (e :: es)
      = ((step s e).2 ++ (runAll (step s e).1 es).1, (runAll (step s e).1 es).2) := by
  simp [runAll]

theorem filterMap_dataPayload_map (ps : List (List Nat)) :
    (ps.map Out.dataOut).filterMap dataPayload = ps := by
  induction ps with
  | nil => simp
  | cons q qs ihq =>
    simp only [List.map_cons, List.filterMap_cons, dataPayload]
    rw [ihq]

theorem chunkRunAux (ps : List (List Nat)) (h : ∀ p ∈ ps, p ≠ []) :
    runAll (mkChunkState (encodeChunks ps)) (List.replicate (ps.length + 1) evE)
      = (ps.map Out.dataOut ++ [Out.eofOut, Out.shutdownOut], chunkEndState) := by
  induction ps with
  | nil =>
    have henc : encodeChunks [] = [48, 13, 10] := by simp [encodeChunks]
    simp [runAll, henc, chunkStep_term]
  | cons p ps ih =>
    have henc : encodeChunks (p :: ps) = encodeChunk p ++ encodeChunks ps := by
      simp [encodeChunks]
    have hstep := chunkStep_cons p (encodeChunks ps) (h p (by simp))
    have hrep : List.replicate ((p :: ps).length + 1) evE
        = evE :: List.replicate (ps.length + 1) evE := by
      simp [List.replicate]
    rw [henc, hrep, runAll_cons, hstep]
    rw [ih (fun q hq => h q (by simp [hq]))]
    simp

/-- C4: for every well-formed chunked body with nonempty chunk payloads
`p1..pn` followed by the zero-length chunk, the decoder delivers exactly one
data callback per chunk carrying that chunk's payload — so the concatenation
of all delivered spans equals the concatenation of the payloads, in chunk
order — and the zero-length chunk triggers the end-of-stream callback
followed by shutdown. -/
theorem c4_chunked_roundtrip (ps : List (List Nat)) (h : ∀ p ∈ ps, p ≠ []) :
    (runAll (mkChunkState [])
        (Event.readDone Err.ok (encodeChunks ps) :: List.replicate ps.length evE)).1
      = ps.map Out.dataOut ++ [Out.eofOut, Out.shutdownOut] ∧
    ((runAll (mkChunkState [])
        (Event.readDone Err.ok (encodeChunks ps) :: List.replicate ps.length evE)).1.filterMap
          dataPayload).flatten = ps.flatten ∧
    (runAll (mkChunkState [])
        (Event.readDone Err.ok (encodeChunks ps) :: List.replicate ps.length evE)).2
      = chunkEndState := by
  have hload : step (mkChunkState []) (Event.readDone Err.ok (encodeChunks ps))
      = step (mkChunkState (encodeChunks ps)) evE := by
    simp [step, mkChunkState, evE]
  have hrun : runAll (mkChunkState [])
        (Event.readDone Err.ok (encodeChunks ps) :: List.replicate ps.length evE)
      = runAll (mkChunkState (encodeChunks ps)) (List.replicate (ps.length + 1) evE) := by
    have hrep : List.replicate (ps.length + 1) evE = evE :: List.replicate ps.length evE := by
      simp [List.replicate]
    rw [hrep, runAll_cons, runAll_cons, hload]
  rw [hrun, chunkRunAux ps h]
  refine ⟨rfl, ?_, rfl⟩
  rw [List.filterMap_append, filterMap_dataPayload_map]
  simp [dataPayload]

/-- Witness for C4 at the spec's own test vector `"5\r\nHELLO\r\n0\r\n"`:
one data callback with payload `HELLO`, then end-of-stream, then
shutdown. -/
theorem c4_chunked_roundtrip_witness :
    (∀ p ∈ [[72, 69, 76, 76, 79]], p ≠ ([] : List Nat)) ∧
    (runAll (mkChunkState [])
        (Event.readDone Err.ok (encodeChunks [[72, 69, 76, 76, 79]])
          :: List.replicate 1 evE)).1
      = [Out.dataOut [72, 69, 76, 76, 79], Out.eofOut, Out.shutdownOut] := by
  refine ⟨by decide, ?_⟩
  have := (c4_chunked_roundtrip [[72, 69, 76, 76, 79]] (by decide)).1
  simpa using this

/-! ## Output classifiers -/

/-- True when an output list contains no error callback, no end-of-stream
callback and no socket shutdown. -/
def benignOuts (outs : List Out) : Bool :=
  outs.all (fun o =>
    match o with
    | Out.errOut _ => false
    | Out.eofOut => false
    | Out.shutdownOut => false
    | _ => true)

/-- True when an output list contains no data callback. -/
def noDataOuts (outs : List Out) : Bool :=
  outs.all (fun o =>
    match o with
    | Out.dataOut _ => false
    | _ => true)

/-- True when an output list contains no headers-ready callback. -/
def noHeadersOuts (outs : List Out) : Bool :=
  outs.all (fun o =>
    match o with
    | Out.headersOut => false
    | _ => true)

/-! ## C5 and C9: the partial-delivery branch of the chunk-body handler -/

theorem handleChunkData_partial (s : CState) (L : Nat) (hd : s.hasData = true)
    (hB : 0 < s.buffer.length) (hBL : s.buffer.length < L) :
    (handleChunkData s Err.ok L).2 = restartT s ++ [Out.dataOut s.buffer] ∧
    (handleChunkData s Err.ok L).1.buffer = [] ∧
    (handleChunkData s Err.ok L).1.reqAtLeast = some (L + 2 - s.buffer.length) ∧
    (handleChunkData s Err.ok L).1.pending
      = some (PH.chunkDataH (L + 2 - s.buffer.length - 2)) := by
  simp only [handleChunkData, restartT, emitData, hd]
  have h1 : L > s.buffer.length := hBL
  have h2 : L > 0 := by omega
  simp [h1, h2]

/-- Connection state for the partial-delivery branch: awaiting a chunk body
of declared length 5 with only the two bytes `HE` buffered. -/
def sPartial : CState := { mkChunkState [72, 69] with pending := some (PH.chunkDataH 5) }

/-- C5 counterexample: in the partial-delivery branch (buffered `HE`,
declared length 5) the buffered bytes are delivered to the data callback but
they are NOT left unconsumed — the byte queue is empty, not still holding
the delivered bytes, when the follow-up read is issued, so the claim that
delivery happens "without being consumed from the byte queue" fails on the
code (connection.cpp:376 consumes the whole buffer). -/
theorem c5_counterexample :
    ¬ (Out.dataOut [72, 69] ∈ (step sPartial evE).2 ∧
       (step sPartial evE).1.buffer = [72, 69]) := by
  decide

/-- C5 (amended): in the partial-delivery branch (0 < buffered bytes B <
declared length L, success completion) the buffered bytes are delivered to
the data callback, then the whole byte queue is consumed, and a further read
sized to the shortfall `L + 2 - B` is issued, re-entering the chunk-body
handler with the reduced length `L - B`. -/
theorem c5_partial_delivery (s : CState) (bytes : List Nat) (L : Nat)
    (hp : s.pending = some (PH.chunkDataH L)) (hc : s.crashed = false)
    (hd : s.hasData = true)
    (hB : 0 < (s.buffer ++ bytes).length) (hBL : (s.buffer ++ bytes).length < L) :
    (step s (Event.readDone Err.ok bytes)).2
        = restartT s ++ [Out.dataOut (s.buffer ++ bytes)] ∧
    (step s (Event.readDone Err.ok bytes)).1.buffer = [] ∧
    (step s (Event.readDone Err.ok bytes)).1.reqAtLeast
        = some (L + 2 - (s.buffer ++ bytes).length) ∧
    (step s (Event.readDone Err.ok bytes)).1.pending
        = some (PH.chunkDataH (L - (s.buffer ++ bytes).length)) := by
  have hstep : step s (Event.readDone Err.ok bytes)
      = handleChunkData { s with buffer := s.buffer ++ bytes } Err.ok L := by
    simp [step, hc, hp]
  obtain ⟨h1, h2, h3, h4⟩ := handleChunkData_partial
    { s with buffer := s.buffer ++ bytes } L (by simpa using hd) (by simpa using hB)
    (by simpa using hBL)
  rw [hstep]
  refine ⟨?_, h2, by simpa using h3, ?_⟩
  · rw [h1]
    simp [restartT]
  · rw [h4]
    congr 2
    simp
    omega

/-- Witness for C5 at buffered bytes `HE` and declared length 5. -/
theorem c5_partial_delivery_witness :
    (step sPartial evE).2 = [Out.dataOut [72, 69]] ∧
    (step sPartial evE).1.buffer = [] ∧
    (step sPartial evE).1.reqAtLeast = some 5 ∧
    (step sPartial evE).1.pending = some (PH.chunkDataH 3) := by
  have h := c5_partial_delivery sPartial [] 5 (by decide) (by decide) (by decide)
    (by decide) (by decide)
  simpa [sPartial, mkChunkState, evE, restartT] using h

/-- C9: in the partial-delivery branch with B buffered bytes (0 < B < L,
success completion) the shortfall requested from the transport is
`L + 2 - B`, the reduced length passed into the next chunk-body invocation
is that shortfall minus 2, and this equals `L - B` — exactly the number of
payload bytes of the current chunk not yet delivered, the delivered span
having length B. -/
theorem c9_shortfall_arith (s : CState) (bytes : List Nat) (L : Nat)
    (hp : s.pending = some (PH.chunkDataH L)) (hc : s.crashed = false)
    (hd : s.hasData = true)
    (hB : 0 < (s.buffer ++ bytes).length) (hBL : (s.buffer ++ bytes).length < L) :
    (step s (Event.readDone Err.ok bytes)).1.reqAtLeast
        = some (L + 2 - (s.buffer ++ bytes).length) ∧
    (step s (Event.readDone Err.ok bytes)).1.pending
        = some (PH.chunkDataH ((L + 2 - (s.buffer ++ bytes).length) - 2)) ∧
    (L + 2 - (s.buffer ++ bytes).length) - 2 = L - (s.buffer ++ bytes).length ∧
    (∃ d, Out.dataOut d ∈ (step s (Event.readDone Err.ok bytes)).2 ∧
      d.length = (s.buffer ++ bytes).length) := by
  obtain ⟨ho, hb, hr, hpend⟩ := c5_partial_delivery s bytes L hp hc hd hB hBL
  have harith : (L + 2 - (s.buffer ++ bytes).length) - 2
      = L - (s.buffer ++ bytes).length := by omega
  refine ⟨hr, ?_, harith, ⟨s.buffer ++ bytes, ?_, rfl⟩⟩
  · rw [hpend, harith]
  · rw [ho]
    simp

/-- Witness for C9 at buffered bytes `HE` and declared length 5: shortfall
5 + 2 - 2 = 5, reduced length 5 - 2 = 3. -/
theorem c9_shortfall_arith_witness :
    (step sPartial evE).1.reqAtLeast = some 5 ∧
    (step sPartial evE).1.pending = some (PH.chunkDataH 3) ∧
    (∃ d, Out.dataOut d ∈ (step sPartial evE).2 ∧ d.length = 2) := by
  obtain ⟨h1, h2, h3, d, hd1, hd2⟩ := c9_shortfall_arith sPartial [] 5 (by decide)
    (by decide) (by decide) (by decide) (by decide)
  refine ⟨by simpa [sPartial, mkChunkState] using h1, ?_, ⟨d, ?_, ?_⟩⟩
  · simpa [sPartial, mkChunkState] using h2
  · simpa [sPartial, mkChunkState, evE] using hd1
  · simpa [sPartial, mkChunkState] using hd2

/-! ## C1: the stale-deadline firing of the timeout supervisor -/

/-- Connection state streaming a plain body with the watchdog configured:
socket open, plain-body read outstanding, 5-second timeout. -/
def sBody : CState :=
  { mkChunkState [] with pending := some PH.readDataH, chunked := false, mtimeout := 5 }

/-- C1: a timer firing whose stored deadline is strictly later than the
current time (`deadlineMoved = true`) on an open connection re-arms a wait
for the new deadline — but then, the guard having no early return
(connection.cpp:432-434), control falls through: the error callback IS
invoked with `connectionTimeout` and the connection IS shut down, against
the handler's own comment and the spec. -/
theorem c1_stale_timeout_fires_anyway :
    (step sBody (Event.timerFired Err.ok true)).2
      = [Out.rearmTimer, Out.errOut Err.connectionTimeout, Out.shutdownOut] ∧
    (step sBody (Event.timerFired Err.ok true)).1.closedF = true ∧
    (step sBody (Event.timerFired Err.ok true)).1.socketOpen = false := by
  decide

/-! ## C2: treatment of operation_aborted completions -/

/-- Connection state awaiting the resolver completion (socket not yet
opened), all callback slots registered. -/
def sResolving : CState :=
  { pending := some PH.resolveH, buffer := [], headers := [], chunked := false,
    active := false, closedF := false, socketOpen := false, crashed := false,
    mtimeout := 0, reqAtLeast := none,
    hasData := true, hasEof := true, hasErr := true, hasHeaders := true }

/-- C2 counterexample: the resolve handler does not special-case
`operation_aborted` — an aborted resolve completion invokes the error
callback (with the cancellation code itself) and shuts the connection down,
so cancellation is not a non-event for every completion handler. -/
theorem c2_counterexample :
    (step sResolving (Event.resolved Err.operationAborted 3)).2
      = [Out.errOut Err.operationAborted] ∧
    (step sResolving (Event.resolved Err.operationAborted 3)).1.closedF = true := by
  decide

theorem benignOuts_restartT (s : CState) : benignOuts (restartT s) = true := by
  by_cases h : s.mtimeout ≠ 0 <;> simp [restartT, h, benignOuts]

theorem noDataOuts_restartT (s : CState) : noDataOuts (restartT s) = true := by
  by_cases h : s.mtimeout ≠ 0 <;> simp [restartT, h, noDataOuts]

theorem benignOuts_nil : benignOuts [] = true := rfl

theorem noDataOuts_nil : noDataOuts [] = true := rfl

theorem benignOuts_append (a b : List Out) :
    benignOuts (a ++ b) = (benignOuts a && benignOuts b) := by
  simp [benignOuts]

theorem benignOuts_emitData (t : CState) (b : List Nat) :
    benignOuts (emitData t b) = true := by
  by_cases h : t.hasData <;> simp [emitData, h, benignOuts]

theorem noDataOuts_append (a b : List Out) :
    noDataOuts (a ++ b) = (noDataOuts a && noDataOuts b) := by
  simp [noDataOuts]

theorem handleReadData_aborted_facts (t : CState) :
    benignOuts (handleReadData t Err.operationAborted).2 = true ∧
    (handleReadData t Err.operationAborted).1.closedF = t.closedF ∧
    (handleReadData t Err.operationAborted).1.socketOpen = t.socketOpen ∧
    (handleReadData t Err.operationAborted).1.headers = t.headers ∧
    (handleReadData t Err.operationAborted).1.chunked = t.chunked ∧
    (handleReadData t Err.operationAborted).1.active = t.active ∧
    (handleReadData t Err.operationAborted).1.buffer = [] := by
  simp only [handleReadData]
  by_cases hb : t.buffer = [] <;>
    simp [hb, benignOuts_append, benignOuts_restartT, benignOuts_emitData,
      benignOuts_nil]

theorem handleChunkData_aborted_facts (t : CState) (n : Nat) :
    benignOuts (handleChunkData t Err.operationAborted n).2 = true ∧
    (handleChunkData t Err.operationAborted n).1.closedF = t.closedF ∧
    (handleChunkData t Err.operationAborted n).1.socketOpen = t.socketOpen ∧
    (handleChunkData t Err.operationAborted n).1.headers = t.headers ∧
    (handleChunkData t Err.operationAborted n).1.chunked = t.chunked ∧
    (handleChunkData t Err.operationAborted n).1.active = t.active ∧
    (handleChunkData t Err.operationAborted n).1.buffer = t.buffer := by
  simp only [handleChunkData]
  split_ifs <;>
    simp_all [benignOuts_append, benignOuts_restartT, benignOuts_emitData,
      benignOuts_nil]

/-- C2 (amended): `operation_aborted` is swallowed — no error callback, no
end-of-stream callback, no shutdown, and no change to the closed/socket
state — by the request-write, data-write, status-read, header-read,
plain-body-read, chunk-size-read and chunk-body-read completions and by the
timer wait; the status, header and chunk-size handlers moreover fire no data
callback and only append the newly received bytes; the plain-body handler
still delivers and consumes any buffered bytes, and the chunk-body handler
still delivers them without consuming.  The resolve and connect handlers are
NOT covered: they treat an aborted completion like any other failure. -/
theorem c2_aborted_swallowed (s : CState) (bytes : List Nat) (m : Bool)
    (hc : s.crashed = false) :
    (benignOuts (step s (Event.readDone Err.operationAborted bytes)).2 = true ∧
     (step s (Event.readDone Err.operationAborted bytes)).1.closedF = s.closedF ∧
     (step s (Event.readDone Err.operationAborted bytes)).1.socketOpen = s.socketOpen ∧
     (step s (Event.readDone Err.operationAborted bytes)).1.headers = s.headers ∧
     (step s (Event.readDone Err.operationAborted bytes)).1.chunked = s.chunked ∧
     (step s (Event.readDone Err.operationAborted bytes)).1.active = s.active) ∧
    (benignOuts (step s (Event.wrote Err.operationAborted)).2 = true ∧
     (step s (Event.wrote Err.operationAborted)).1.closedF = s.closedF ∧
     (step s (Event.wrote Err.operationAborted)).1.socketOpen = s.socketOpen) ∧
    (benignOuts (step s (Event.wroteData Err.operationAborted)).2 = true ∧
     (step s (Event.wroteData Err.operationAborted)).1.closedF = s.closedF ∧
     (step s (Event.wroteData Err.operationAborted)).1.socketOpen = s.socketOpen) ∧
    (benignOuts (step s (Event.timerFired Err.operationAborted m)).2 = true ∧
     (step s (Event.timerFired Err.operationAborted m)).1 = s) ∧
    ((s.pending = some PH.readStatusH ∨ s.pending = some PH.readHeadersH ∨
      s.pending = some PH.chunkLenH) →
      noDataOuts (step s (Event.readDone Err.operationAborted bytes)).2 = true ∧
      (step s (Event.readDone Err.operationAborted bytes)).1.buffer = s.buffer ++ bytes) ∧
    (s.pending = some PH.readDataH →
      (step s (Event.readDone Err.operationAborted bytes)).1.buffer = []) ∧
    (∀ n, s.pending = some (PH.chunkDataH n) →
      (step s (Event.readDone Err.operationAborted bytes)).1.buffer = s.buffer ++ bytes) := by
  refine ⟨?_, ?_, ?_, ?_, ?_, ?_, ?_⟩
  · cases hp : s.pending with
    | none => simp [step, hc, hp, benignOuts]
    | some ph =>
      cases ph with
      | readDataH =>
        have hstep : step s (Event.readDone Err.operationAborted bytes)
            = handleReadData { s with buffer := s.buffer ++ bytes }
                Err.operationAborted := by
          simp [step, hc, hp]
        rw [hstep]
        have h := handleReadData_aborted_facts { s with buffer := s.buffer ++ bytes }
        exact ⟨h.1, h.2.1, h.2.2.1, h.2.2.2.1, h.2.2.2.2.1, h.2.2.2.2.2.1⟩
      | chunkDataH n =>
        have hstep : step s (Event.readDone Err.operationAborted bytes)
            = handleChunkData { s with buffer := s.buffer ++ bytes }
                Err.operationAborted n := by
          simp [step, hc, hp]
        rw [hstep]
        have h := handleChunkData_aborted_facts { s with buffer := s.buffer ++ bytes } n
        exact ⟨h.1, h.2.1, h.2.2.1, h.2.2.2.1, h.2.2.2.2.1, h.2.2.2.2.2.1⟩
      | resolveH => simp [step, hc, hp, benignOuts]
      | connectH k => simp [step, hc, hp, benignOuts]
      | writeReqH => simp [step, hc, hp, benignOuts]
      | readStatusH =>
        simp [step, hc, hp, handleReadStatus, benignOuts_restartT]
      | readHeadersH =>
        simp [step, hc, hp, handleReadHeaders, benignOuts_restartT]
      | chunkLenH =>
        simp [step, hc, hp, handleChunkLen, benignOuts_restartT]
  · cases hp : s.pending with
    | none => simp [step, hc, hp, benignOuts]
    | some ph =>
      cases ph <;> by_cases hm : s.mtimeout = 0 <;>
        simp [step, hc, hp, handleWriteReq, restartT, hm, benignOuts]
  · by_cases hm : s.mtimeout = 0 <;>
      simp [step, hc, handleWriteData, restartT, hm, benignOuts]
  · simp [step, hc, handleTimeout, benignOuts_nil]
  · intro hp
    rcases hp with hp | hp | hp <;> by_cases hm : s.mtimeout = 0 <;>
      simp [step, hc, hp, handleReadStatus, handleReadHeaders, handleChunkLen,
        restartT, hm, noDataOuts]
  · intro hp
    have hstep : step s (Event.readDone Err.operationAborted bytes)
        = handleReadData { s with buffer := s.buffer ++ bytes }
            Err.operationAborted := by
      simp [step, hc, hp]
    rw [hstep]
    exact (handleReadData_aborted_facts _).2.2.2.2.2.2
  · intro n hp
    have hstep : step s (Event.readDone Err.operationAborted bytes)
        = handleChunkData { s with buffer := s.buffer ++ bytes }
            Err.operationAborted n := by
      simp [step, hc, hp]
    rw [hstep]
    exact (handleChunkData_aborted_facts _ n).2.2.2.2.2.2

/-- Witness for C2 (amended) on a concrete status-read state: the aborted
status completion produces no terminal output, no data callback, and only
appends the received byte to the queue. -/
theorem c2_aborted_swallowed_witness :
    benignOuts (step { sResolving with pending := some PH.readStatusH }
      (Event.readDone Err.operationAborted [65])).2 = true ∧
    noDataOuts (step { sResolving with pending := some PH.readStatusH }
      (Event.readDone Err.operationAborted [65])).2 = true ∧
    (step { sResolving with pending := some PH.readStatusH }
      (Event.readDone Err.operationAborted [65])).1.buffer = [65] := by
  have h := c2_aborted_swallowed { sResolving with pending := some PH.readStatusH }
    [65] false (by decide)
  refine ⟨h.1.1, ?_, ?_⟩
  · exact (h.2.2.2.2.1 (Or.inl rfl)).1
  · have := (h.2.2.2.2.1 (Or.inl rfl)).2
    simpa [sResolving] using this

/-! ## C6 and C10: header-line trimming -/

/-- C6: a header line without a colon — here `Warning\r` as `std::getline`
yields it — splits into the whole line paired with the empty string, but the
trim step then fails (models the `std::out_of_range` exception from
`substr(npos, ...)`, since `find_first_not_of` on the empty value returns
`npos`): the pair is never stored and header parsing does not complete.
Feeding the block `Wa\r\n\r\n` through the header-read completion leaves
the process crashed with the header mapping still empty. -/
theorem c6_colonless_line_throws :
    splitString [87, 97, 114, 110, 105, 110, 103, 13] 58
      = ([87, 97, 114, 110, 105, 110, 103, 13], []) ∧
    trimStringPair ([87, 97, 114, 110, 105, 110, 103, 13], []) = none ∧
    (step { sResolving with pending := some PH.readHeadersH, socketOpen := true }
      (Event.readDone Err.ok [87, 97, 13, 10, 13, 10])).1.crashed = true ∧
    (step { sResolving with pending := some PH.readHeadersH, socketOpen := true }
      (Event.readDone Err.ok [87, 97, 13, 10, 13, 10])).1.headers = [] ∧
    (step { sResolving with pending := some PH.readHeadersH, socketOpen := true }
      (Event.readDone Err.ok [87, 97, 13, 10, 13, 10])).2 = [] := by
  decide

/-- C10: header-line trimming is not total — for the value portion `" \t"`,
consisting entirely of space and tab, `find_first_not_of` returns `npos`,
which exceeds the value's length 2, and the substring extraction fails
(models the thrown `std::out_of_range`) instead of being well-defined. -/
theorem c10_allwhitespace_trim_fails :
    ffno [32, 9] [32, 9] = npos ∧
    ¬ (ffno [32, 9] [32, 9] ≤ ([32, 9] : List Nat).length) ∧
    trimStringPair ([88], [32, 9]) = none := by
  decide

/-! ## C7: non-200 status lines -/

theorem noDataOuts_emitData_absent (t : CState) (b : List Nat) :
    t.hasData = false → noDataOuts (emitData t b) = true := by
  intro h
  simp [emitData, h, noDataOuts]

/-- After a terminal step the connection is inert: with no pending operation
and the socket closed, no later completion can produce a data callback, and
the state stays inert. -/
theorem deadStep (s : CState) (hp : s.pending = none) (ho : s.socketOpen = false)
    (e : Event) :
    noDataOuts (step s e).2 = true ∧ (step s e).1.pending = none ∧
    (step s e).1.socketOpen = false := by
  by_cases hcr : s.crashed = true
  · simp [step, hcr, hp, ho, noDataOuts]
  · have hc : s.crashed = false := by simpa using hcr
    cases e with
    | resolved err n => simp [step, hc, hp, ho, noDataOuts]
    | connected err => simp [step, hc, hp, ho, noDataOuts]
    | wrote err => simp [step, hc, hp, ho, noDataOuts]
    | wroteData err =>
      by_cases hm : s.mtimeout = 0 <;>
        simp [step, hc, handleWriteData, mShutdown, restartT, hm, hp, ho, noDataOuts] <;>
        split_ifs <;> simp_all [noDataOuts, emitErr]
    | readDone err bytes => simp [step, hc, hp, ho, noDataOuts]
    | timerFired err m =>
      by_cases ha : err = Err.operationAborted
      · simp [step, hc, handleTimeout, ha, hp, ho, noDataOuts]
      · simp [step, hc, handleTimeout, ha, hp, ho, noDataOuts]

/-- No execution continuing from an inert state ever produces a data
callback. -/
theorem deadRun (s : CState) (hp : s.pending = none) (ho : s.socketOpen = false)
    (es : List Event) : noDataOuts (runAll s es).1 = true := by
  induction es generalizing s with
  | nil => simp [runAll, noDataOuts]
  | cons e es ih =>
    obtain ⟨h1, h2, h3⟩ := deadStep s hp ho e
    rw [runAll_cons]
    simp only [noDataOuts_append, h1, Bool.true_and]
    exact ih (step s e).1 h2 h3

theorem handleReadStatus_invalid (t : CState) (he : t.hasErr = true)
    (ho : t.socketOpen = true) (h200 : (parseStatus t.buffer).2.1 ≠ 200) :
    (handleReadStatus t Err.ok).2
      = restartT t ++ [Out.errOut Err.invalidStatus, Out.shutdownOut] ∧
    (handleReadStatus t Err.ok).1.closedF = true ∧
    (handleReadStatus t Err.ok).1.pending = none ∧
    (handleReadStatus t Err.ok).1.socketOpen = false := by
  simp only [handleReadStatus, mShutdown, emitErr, he, ho]
  simp [h200]

/-- C7: a status line whose parsed numeric code differs from 200 — whatever
the protocol token — makes the status-read completion invoke the error
callback with `invalidStatus` and shut the connection down; no data callback
fires in this step nor in any continuation of the execution. -/
theorem c7_invalid_status (s : CState) (bytes : List Nat) (es : List Event)
    (hp : s.pending = some PH.readStatusH) (hc : s.crashed = false)
    (ho : s.socketOpen = true) (he : s.hasErr = true)
    (h200 : (parseStatus (s.buffer ++ bytes)).2.1 ≠ 200) :
    Out.errOut Err.invalidStatus ∈ (step s (Event.readDone Err.ok bytes)).2 ∧
    Out.shutdownOut ∈ (step s (Event.readDone Err.ok bytes)).2 ∧
    noDataOuts (step s (Event.readDone Err.ok bytes)).2 = true ∧
    (step s (Event.readDone Err.ok bytes)).1.closedF = true ∧
    noDataOuts (runAll (step s (Event.readDone Err.ok bytes)).1 es).1 = true := by
  have hstep : step s (Event.readDone Err.ok bytes)
      = handleReadStatus { s with buffer := s.buffer ++ bytes } Err.ok := by
    simp [step, hc, hp]
  obtain ⟨h1, h2, h3, h4⟩ := handleReadStatus_invalid
    { s with buffer := s.buffer ++ bytes } (by simpa using he) (by simpa using ho)
    (by simpa using h200)
  rw [hstep]
  refine ⟨?_, ?_, ?_, h2, deadRun _ h3 h4 es⟩
  · rw [h1]; simp
  · rw [h1]; simp
  · rw [h1]
    simp only [noDataOuts_append, noDataOuts_restartT, Bool.true_and]
    decide

/-- Witness for C7 at the status line `HTTP/1.0 404` (any protocol token,
code 404). -/
theorem c7_invalid_status_witness :
    Out.errOut Err.invalidStatus ∈
      (step { sResolving with pending := some PH.readStatusH, socketOpen := true }
        (Event.readDone Err.ok [72, 84, 84, 80, 32, 52, 48, 52, 13, 10])).2 ∧
    noDataOuts (runAll
      (step { sResolving with pending := some PH.readStatusH, socketOpen := true }
        (Event.readDone Err.ok [72, 84, 84, 80, 32, 52, 48, 52, 13, 10])).1 [evE]).1
      = true := by
  have h := c7_invalid_status
    { sResolving with pending := some PH.readStatusH, socketOpen := true }
    [72, 84, 84, 80, 32, 52, 48, 52, 13, 10] [evE]
    (by decide) (by decide) (by decide) (by decide) (by decide)
  exact ⟨h.1, h.2.2.2.2⟩

/-! ## C8: the ICY protocol token skips header parsing -/

theorem noHeadersOuts_nil : noHeadersOuts [] = true := rfl

theorem noHeadersOuts_emitEof (t : CState) : noHeadersOuts (emitEof t) = true := by
  by_cases h : t.hasEof <;> simp [emitEof, h, noHeadersOuts]

theorem noHeadersOuts_emitErr (t : CState) (e : Err) :
    noHeadersOuts (emitErr t e) = true := by
  by_cases h : t.hasErr <;> simp [emitErr, h, noHeadersOuts]

theorem noHeadersOuts_mShutdown (t : CState) :
    noHeadersOuts (mShutdown t).2 = true := by
  by_cases h : t.socketOpen <;> simp [mShutdown, h, noHeadersOuts]

theorem noHeadersOuts_append (a b : List Out) :
    noHeadersOuts (a ++ b) = (noHeadersOuts a && noHeadersOuts b) := by
  simp [noHeadersOuts]

theorem noHeadersOuts_restartT (s : CState) : noHeadersOuts (restartT s) = true := by
  by_cases h : s.mtimeout ≠ 0 <;> simp [restartT, h, noHeadersOuts]

theorem noHeadersOuts_emitData (t : CState) (b : List Nat) :
    noHeadersOuts (emitData t b) = true := by
  by_cases h : t.hasData <;> simp [emitData, h, noHeadersOuts]

/-- Invariant of a response being streamed without a header block: the only
operation ever outstanding is the plain-body read (or none), the header
mapping is empty and chunked mode is off. -/
def inv8 (s : CState) : Prop :=
  (s.pending = some PH.readDataH ∨ s.pending = none) ∧
  s.headers = [] ∧ s.chunked = false

theorem inv8_step (s : CState) (h : inv8 s) (e : Event) :
    noHeadersOuts (step s e).2 = true ∧ inv8 (step s e).1 := by
  obtain ⟨hp, hh, hch⟩ := h
  by_cases hcr : s.crashed = true
  · simp [step, hcr, noHeadersOuts, inv8, hp, hh, hch]
  · have hc : s.crashed = false := by simpa using hcr
    cases e with
    | resolved err n =>
      rcases hp with hp | hp <;> simp [step, hc, hp, noHeadersOuts, inv8, hh, hch]
    | connected err =>
      rcases hp with hp | hp <;> simp [step, hc, hp, noHeadersOuts, inv8, hh, hch]
    | wrote err =>
      rcases hp with hp | hp <;> simp [step, hc, hp, noHeadersOuts, inv8, hh, hch]
    | wroteData err =>
      by_cases hm : s.mtimeout = 0 <;> by_cases he : s.hasErr = true <;>
        by_cases ho : s.socketOpen = true <;>
        simp [step, hc, handleWriteData, mShutdown, restartT, hm, he, ho, emitErr,
          noHeadersOuts, inv8, hp, hh, hch] <;>
        split_ifs <;> simp_all [noHeadersOuts]
    | readDone err bytes =>
      rcases hp with hp | hp
      · have hstep : step s (Event.readDone err bytes)
            = handleReadData { s with buffer := s.buffer ++ bytes } err := by
          simp [step, hc, hp]
        rw [hstep]
        simp only [handleReadData]
        by_cases hm : s.mtimeout = 0 <;> by_cases ho : s.socketOpen = true <;>
          by_cases hd : s.hasData = true <;> by_cases heof : s.hasEof = true <;>
          by_cases herr : s.hasErr = true <;>
          split_ifs <;>
          simp_all [restartT, emitData, emitEof, emitErr, mShutdown,
            noHeadersOuts, inv8]
      · simp [step, hc, hp, noHeadersOuts, inv8, hh, hch]
    | timerFired err m =>
      by_cases ha : err = Err.operationAborted
      · simp [step, hc, handleTimeout, ha, noHeadersOuts, inv8, hp, hh, hch]
      · by_cases ho : s.socketOpen = true <;> by_cases he : s.hasErr = true <;>
          by_cases hmv : m = true <;>
          simp [step, hc, handleTimeout, ha, ho, he, hmv, mShutdown, emitErr,
            noHeadersOuts, inv8, hp, hh, hch]

theorem inv8_run (s : CState) (h : inv8 s) (es : List Event) :
    noHeadersOuts (runAll s es).1 = true ∧ (runAll s es).2.headers = [] ∧
    (runAll s es).2.chunked = false := by
  induction es generalizing s with
  | nil => exact ⟨rfl, h.2.1, h.2.2⟩
  | cons e es ih =>
    obtain ⟨h1, h2⟩ := inv8_step s h e
    rw [runAll_cons]
    obtain ⟨ih1, ih2, ih3⟩ := ih (step s e).1 h2
    simp only [noHeadersOuts_append, h1, Bool.true_and]
    exact ⟨ih1, ih2, ih3⟩

theorem handleReadStatus_icy (t : CState)
    (hproto : (parseStatus t.buffer).1 = [73, 67, 89])
    (hcode : (parseStatus t.buffer).2.1 = 200) :
    (handleReadStatus t Err.ok).2 = restartT t ∧
    (handleReadStatus t Err.ok).1.active = true ∧
    (handleReadStatus t Err.ok).1.pending = some PH.readDataH ∧
    (handleReadStatus t Err.ok).1.headers = t.headers ∧
    (handleReadStatus t Err.ok).1.chunked = t.chunked := by
  simp [handleReadStatus, hproto, hcode]

/-- C8: a status line with protocol token exactly `ICY` and code 200 marks
the connection active and goes straight to plain body streaming: the step
emits nothing beyond the timer re-arm, and in the whole continuation the
headers-ready callback never fires, the header mapping stays empty and
chunked mode is never set. -/
theorem c8_icy_skips_headers (s : CState) (bytes : List Nat) (es : List Event)
    (hp : s.pending = some PH.readStatusH) (hc : s.crashed = false)
    (hh : s.headers = []) (hch : s.chunked = false)
    (hproto : (parseStatus (s.buffer ++ bytes)).1 = [73, 67, 89])
    (hcode : (parseStatus (s.buffer ++ bytes)).2.1 = 200) :
    (step s (Event.readDone Err.ok bytes)).1.active = true ∧
    (step s (Event.readDone Err.ok bytes)).1.pending = some PH.readDataH ∧
    (step s (Event.readDone Err.ok bytes)).2 = restartT s ∧
    noHeadersOuts (runAll (step s (Event.readDone Err.ok bytes)).1 es).1 = true ∧
    (runAll (step s (Event.readDone Err.ok bytes)).1 es).2.headers = [] ∧
    (runAll (step s (Event.readDone Err.ok bytes)).1 es).2.chunked = false := by
  have hstep : step s (Event.readDone Err.ok bytes)
      = handleReadStatus { s with buffer := s.buffer ++ bytes } Err.ok := by
    simp [step, hc, hp]
  obtain ⟨h1, h2, h3, h4, h5⟩ := handleReadStatus_icy
    { s with buffer := s.buffer ++ bytes } (by simpa using hproto) (by simpa using hcode)
  have hinv : inv8 (step s (Event.readDone Err.ok bytes)).1 := by
    rw [hstep]
    refine ⟨Or.inl h3, ?_, ?_⟩
    · rw [h4]; simpa using hh
    · rw [h5]; simpa using hch
  obtain ⟨hr1, hr2, hr3⟩ := inv8_run _ hinv es
  refine ⟨?_, ?_, ?_, hr1, hr2, hr3⟩
  · rw [hstep]; exact h2
  · rw [hstep]; exact h3
  · rw [hstep, h1]; simp [restartT]

/-- Witness for C8 at the status line `ICY 200 OK` followed by an empty body
read completion. -/
theorem c8_icy_skips_headers_witness :
    (step { sResolving with pending := some PH.readStatusH, socketOpen := true }
      (Event.readDone Err.ok [73, 67, 89, 32, 50, 48, 48, 32, 79, 75, 13, 10])).1.active
      = true ∧
    noHeadersOuts (runAll
      (step { sResolving with pending := some PH.readStatusH, socketOpen := true }
        (Event.readDone Err.ok [73, 67, 89, 32, 50, 48, 48, 32, 79, 75, 13, 10])).1
      [evE]).1 = true := by
  have h := c8_icy_skips_headers
    { sResolving with pending := some PH.readStatusH, socketOpen := true }
    [73, 67, 89, 32, 50, 48, 48, 32, 79, 75, 13, 10] [evE]
    (by decide) (by decide) (by decide) (by decide) (by decide) (by decide)
  exact ⟨h.1, h.2.2.2.1⟩

/-! ## C3: exactly one terminal callback at shutdown -/

theorem tc_nil : tc [] = 0 := rfl

theorem tc_append (a b : List Out) : tc (a ++ b) = tc a + tc b := by
  simp [tc]

theorem tc_restartT (s : CState) : tc (restartT s) = 0 := by
  by_cases h : s.mtimeout = 0 <;> simp [restartT, h, tc]

theorem tc_emitData (s : CState) (b : List Nat) : tc (emitData s b) = 0 := by
  by_cases h : s.hasData <;> simp [emitData, h, tc]

theorem tc_emitHeaders (s : CState) : tc (emitHeaders s) = 0 := by
  by_cases h : s.hasHeaders <;> simp [emitHeaders, h, tc]

theorem tc_emitErr (s : CState) (e : Err) (h : s.hasErr = true) :
    tc (emitErr s e) = 1 := by
  simp [emitErr, h, tc]

theorem tc_emitEof (s : CState) (h : s.hasEof = true) : tc (emitEof s) = 1 := by
  simp [emitEof, h, tc]

theorem tc_mShutdown (s : CState) : tc (mShutdown s).2 = 0 := by
  by_cases h : s.socketOpen <;> simp [mShutdown, h, tc]

theorem mShutdown_closedF (s : CState) : (mShutdown s).1.closedF = true := by
  by_cases h : s.socketOpen <;> simp [mShutdown, h]

theorem tc_rearm : tc [Out.rearmTimer] = 0 := rfl

theorem tc_rearm_cons (x : List Out) : tc (Out.rearmTimer :: x) = tc x := by
  simp [tc]

/-- One handler invocation either leaves the shutdown marker unchanged and
emits no terminal callback, or runs the shutdown path and emits exactly one
terminal callback. -/
def stepFacts (t : CState) (r : CState × List Out) : Prop :=
  (r.1.closedF = t.closedF ∧ tc r.2 = 0) ∨ (r.1.closedF = true ∧ tc r.2 = 1)

theorem stepFacts_handleResolve (t : CState) (err : Err) (n : Nat)
    (he : t.hasErr = true) :
    stepFacts t (handleResolve t err n) := by
  simp only [handleResolve, stepFacts]
  split_ifs with h1 h2
  · exact Or.inl ⟨rfl, tc_restartT t⟩
  · refine Or.inr ⟨mShutdown_closedF _, ?_⟩
    simp [tc_append, tc_restartT, tc_emitErr t _ he, tc_mShutdown]
  · refine Or.inr ⟨mShutdown_closedF _, ?_⟩
    simp [tc_append, tc_restartT, tc_emitErr t _ he, tc_mShutdown]

theorem stepFacts_handleConnect (t : CState) (err : Err) (rem : Nat)
    (he : t.hasErr = true) :
    stepFacts t (handleConnect t err rem) := by
  simp only [handleConnect, stepFacts]
  split_ifs with h1 h2
  · exact Or.inl ⟨rfl, tc_restartT t⟩
  · exact Or.inl ⟨rfl, tc_restartT t⟩
  · refine Or.inr ⟨mShutdown_closedF _, ?_⟩
    simp [tc_append, tc_restartT, tc_emitErr t _ he, tc_mShutdown]

theorem stepFacts_handleWriteReq (t : CState) (err : Err) (he : t.hasErr = true) :
    stepFacts t (handleWriteReq t err) := by
  simp only [handleWriteReq, stepFacts]
  split_ifs with h1 h2
  · exact Or.inl ⟨rfl, tc_restartT t⟩
  · exact Or.inl ⟨rfl, tc_restartT t⟩
  · refine Or.inr ⟨mShutdown_closedF _, ?_⟩
    simp [tc_append, tc_restartT, tc_emitErr t _ he, tc_mShutdown]

theorem stepFacts_handleWriteData (t : CState) (err : Err) (he : t.hasErr = true) :
    stepFacts t (handleWriteData t err) := by
  simp only [handleWriteData, stepFacts]
  split_ifs with h1
  · refine Or.inr ⟨mShutdown_closedF _, ?_⟩
    simp [tc_append, tc_restartT, tc_emitErr t _ he, tc_mShutdown]
  · exact Or.inl ⟨rfl, tc_restartT t⟩

theorem stepFacts_handleTimeout (t : CState) (err : Err) (m : Bool)
    (he : t.hasErr = true) :
    stepFacts t (handleTimeout t err m) := by
  simp only [handleTimeout, stepFacts]
  by_cases h1 : err = Err.operationAborted
  · simp [h1, tc_nil]
  · by_cases h2 : t.socketOpen = false
    · simp [h1, h2, tc_nil]
    · have hone : tc (emitErr t Err.connectionTimeout) = 1 := tc_emitErr t _ he
      refine Or.inr ⟨by simp [h1, h2, mShutdown_closedF], ?_⟩
      cases m <;>
        simp [h1, h2, tc_append, hone, tc_mShutdown, tc_nil, tc_rearm_cons]

theorem stepFacts_handleReadStatus (t : CState) (err : Err) (he : t.hasErr = true) :
    stepFacts t (handleReadStatus t err) := by
  simp only [handleReadStatus, stepFacts]
  split_ifs with h1 h2 h3 h4
  · refine Or.inr ⟨mShutdown_closedF _, ?_⟩
    simp [tc_append, tc_restartT, tc_emitErr t _ he, tc_mShutdown]
  · exact Or.inl ⟨rfl, tc_restartT t⟩
  · exact Or.inl ⟨rfl, tc_restartT t⟩
  · exact Or.inl ⟨rfl, tc_restartT t⟩
  · refine Or.inr ⟨mShutdown_closedF _, ?_⟩
    simp [tc_append, tc_restartT, tc_emitErr t _ he, tc_mShutdown]

theorem stepFacts_handleReadHeaders (t : CState) (err : Err) (he : t.hasErr = true) :
    stepFacts t (handleReadHeaders t err) := by
  simp only [handleReadHeaders, stepFacts]
  split_ifs with h1 h2
  · cases hm : headersLoop t.headers t.chunked t.buffer with
    | none => exact Or.inl ⟨rfl, tc_restartT t⟩
    | some v =>
      obtain ⟨hs, ch, rest⟩ := v
      by_cases hch : ch <;>
        simp [hch, tc_append, tc_restartT, tc_emitHeaders]
  · exact Or.inl ⟨rfl, tc_restartT t⟩
  · refine Or.inr ⟨mShutdown_closedF _, ?_⟩
    simp [tc_append, tc_restartT, tc_emitErr t _ he, tc_mShutdown]

theorem stepFacts_handleReadData (t : CState) (err : Err)
    (he : t.hasErr = true) (hf : t.hasEof = true) :
    stepFacts t (handleReadData t err) := by
  simp only [handleReadData, stepFacts]
  by_cases hb : t.buffer = []
  · simp only [hb, ne_eq, not_true_eq_false, if_false]
    split_ifs with h1 h2 h3
    · exact Or.inl ⟨rfl, by simp [tc_append, tc_restartT, tc_nil]⟩
    · refine Or.inr ⟨mShutdown_closedF _, ?_⟩
      simp [tc_append, tc_restartT, tc_emitEof t hf, tc_mShutdown, tc_nil]
    · exact Or.inl ⟨rfl, by simp [tc_append, tc_restartT, tc_nil]⟩
    · refine Or.inr ⟨mShutdown_closedF _, ?_⟩
      simp [tc_append, tc_restartT, tc_emitErr t _ he, tc_mShutdown, tc_nil]
  · simp only [hb, ne_eq, not_false_eq_true, if_true]
    split_ifs with h1 h2 h3
    · exact Or.inl ⟨rfl, by simp [tc_append, tc_restartT, tc_emitData]⟩
    · refine Or.inr ⟨mShutdown_closedF _, ?_⟩
      simp [tc_append, tc_restartT, tc_emitData, tc_emitEof t hf, tc_mShutdown]
    · exact Or.inl ⟨rfl, by simp [tc_append, tc_restartT, tc_emitData]⟩
    · refine Or.inr ⟨mShutdown_closedF _, ?_⟩
      simp [tc_append, tc_restartT, tc_emitData, tc_emitErr t _ he, tc_mShutdown]

theorem stepFacts_handleChunkData (t : CState) (err : Err) (n : Nat)
    (he : t.hasErr = true) (hf : t.hasEof = true) :
    stepFacts t (handleChunkData t err n) := by
  simp only [handleChunkData, stepFacts]
  split_ifs with h1 h2 h3 h4 h5 h6 h7 h8 h9 h10 <;>
    first
    | exact Or.inl ⟨rfl, by simp [tc_append, tc_restartT, tc_emitData, tc_nil]⟩
    | refine Or.inr ⟨mShutdown_closedF _, ?_⟩
      simp [tc_append, tc_restartT, tc_emitData, tc_emitEof t hf,
        tc_emitErr t _ he, tc_mShutdown, tc_nil]

theorem handleChunkData_ok_facts (t : CState) (n : Nat) :
    (handleChunkData t Err.ok n).1.closedF = t.closedF ∧
    tc (handleChunkData t Err.ok n).2 = 0 := by
  simp only [handleChunkData]
  split_ifs <;>
    simp [tc_append, tc_restartT, tc_emitData, tc_nil]

theorem stepFacts_handleChunkLen (t : CState) (err : Err)
    (he : t.hasErr = true) (hf : t.hasEof = true) :
    stepFacts t (handleChunkLen t err) := by
  simp only [handleChunkLen, stepFacts]
  split_ifs with h1 h2 h3 h4 h5
  · refine Or.inr ⟨mShutdown_closedF _, ?_⟩
    simp [tc_append, tc_restartT, tc_emitEof t hf, tc_mShutdown]
  · exact Or.inl ⟨rfl, tc_restartT t⟩
  · obtain ⟨hcf, htc⟩ := handleChunkData_ok_facts
      { t with buffer := t.buffer.drop (parseChunkLength t.buffer).1 }
      (parseChunkLength t.buffer).2
    refine Or.inl ⟨by simpa using hcf, ?_⟩
    simp [tc_append, tc_restartT, htc]
  · refine Or.inr ⟨mShutdown_closedF _, ?_⟩
    simp [tc_append, tc_restartT, tc_emitEof t hf, tc_mShutdown]
  · exact Or.inl ⟨rfl, tc_restartT t⟩
  · refine Or.inr ⟨mShutdown_closedF _, ?_⟩
    simp [tc_append, tc_restartT, tc_emitErr t _ he, tc_mShutdown]

/-- Every reactor step either leaves the shutdown marker unchanged emitting
no terminal callback, or runs the shutdown path emitting exactly one, given
that the error and end-of-stream slots are registered. -/
theorem step_facts (s : CState) (e : Event)
    (he : s.hasErr = true) (hf : s.hasEof = true) :
    stepFacts s (step s e) := by
  by_cases hcr : s.crashed = true
  · simp [step, hcr, stepFacts, tc_nil]
  · have hc : s.crashed = false := by simpa using hcr
    cases e with
    | resolved err n =>
      cases hp : s.pending with
      | none => simp [step, hc, hp, stepFacts, tc_nil]
      | some ph =>
        cases ph <;> simp only [step, hc, hp, Bool.false_eq_true, if_false] <;>
          first
          | exact stepFacts_handleResolve s err n he
          | exact Or.inl ⟨rfl, tc_nil⟩
    | connected err =>
      cases hp : s.pending with
      | none => simp [step, hc, hp, stepFacts, tc_nil]
      | some ph =>
        cases ph <;> simp only [step, hc, hp, Bool.false_eq_true, if_false] <;>
          first
          | exact stepFacts_handleConnect s err _ he
          | exact Or.inl ⟨rfl, tc_nil⟩
    | wrote err =>
      cases hp : s.pending with
      | none => simp [step, hc, hp, stepFacts, tc_nil]
      | some ph =>
        cases ph <;> simp only [step, hc, hp, Bool.false_eq_true, if_false] <;>
          first
          | exact stepFacts_handleWriteReq s err he
          | exact Or.inl ⟨rfl, tc_nil⟩
    | wroteData err =>
      simp only [step, hc, Bool.false_eq_true, if_false]
      exact stepFacts_handleWriteData s err he
    | readDone err bytes =>
      cases hp : s.pending with
      | none => simp [step, hc, hp, stepFacts, tc_nil]
      | some ph =>
        cases ph <;> simp only [step, hc, hp, Bool.false_eq_true, if_false] <;>
          first
          | exact stepFacts_handleReadStatus _ err he
          | exact stepFacts_handleReadHeaders _ err he
          | exact stepFacts_handleReadData _ err he hf
          | exact stepFacts_handleChunkLen _ err he hf
          | exact stepFacts_handleChunkData _ err _ he hf
          | exact Or.inl ⟨rfl, tc_nil⟩
    | timerFired err m =>
      simp only [step, hc, Bool.false_eq_true, if_false]
      exact stepFacts_handleTimeout s err m he

theorem slots_mShutdown (t : CState) :
    (mShutdown t).1.hasErr = t.hasErr ∧ (mShutdown t).1.hasEof = t.hasEof := by
  by_cases h : t.socketOpen <;> simp [mShutdown, h]

theorem slots_handleResolve (t : CState) (err : Err) (n : Nat) :
    (handleResolve t err n).1.hasErr = t.hasErr ∧
    (handleResolve t err n).1.hasEof = t.hasEof := by
  simp only [handleResolve]
  split_ifs <;> simp [slots_mShutdown, mShutdown] <;>
    by_cases h : t.socketOpen <;> simp [h]

theorem slots_handleConnect (t : CState) (err : Err) (rem : Nat) :
    (handleConnect t err rem).1.hasErr = t.hasErr ∧
    (handleConnect t err rem).1.hasEof = t.hasEof := by
  simp only [handleConnect]
  split_ifs <;> simp [mShutdown] <;>
    by_cases h : t.socketOpen <;> simp [h]

theorem slots_handleWriteReq (t : CState) (err : Err) :
    (handleWriteReq t err).1.hasErr = t.hasErr ∧
    (handleWriteReq t err).1.hasEof = t.hasEof := by
  simp only [handleWriteReq]
  split_ifs <;> simp [mShutdown] <;>
    by_cases h : t.socketOpen <;> simp [h]

theorem slots_handleWriteData (t : CState) (err : Err) :
    (handleWriteData t err).1.hasErr = t.hasErr ∧
    (handleWriteData t err).1.hasEof = t.hasEof := by
  simp only [handleWriteData]
  split_ifs <;> simp [mShutdown] <;>
    by_cases h : t.socketOpen <;> simp [h]

theorem slots_handleReadStatus (t : CState) (err : Err) :
    (handleReadStatus t err).1.hasErr = t.hasErr ∧
    (handleReadStatus t err).1.hasEof = t.hasEof := by
  simp only [handleReadStatus]
  split_ifs <;> simp [mShutdown] <;>
    by_cases h : t.socketOpen <;> simp [h]

theorem slots_handleReadHeaders (t : CState) (err : Err) :
    (handleReadHeaders t err).1.hasErr = t.hasErr ∧
    (handleReadHeaders t err).1.hasEof = t.hasEof := by
  simp only [handleReadHeaders]
  split_ifs
  · cases hm : headersLoop t.headers t.chunked t.buffer with
    | none => simp
    | some v =>
      obtain ⟨hs, ch, rest⟩ := v
      by_cases hch : ch <;> simp [hch]
  · simp
  · simp [mShutdown]
    by_cases h : t.socketOpen <;> simp [h]

theorem slots_handleReadData (t : CState) (err : Err) :
    (handleReadData t err).1.hasErr = t.hasErr ∧
    (handleReadData t err).1.hasEof = t.hasEof := by
  simp only [handleReadData]
  by_cases hb : t.buffer = [] <;>
    simp only [hb, ne_eq, not_true_eq_false, not_false_eq_true, if_false, if_true] <;>
    split_ifs <;> simp [mShutdown] <;>
    by_cases h : t.socketOpen <;> simp [h]

theorem slots_handleChunkData (t : CState) (err : Err) (n : Nat) :
    (handleChunkData t err n).1.hasErr = t.hasErr ∧
    (handleChunkData t err n).1.hasEof = t.hasEof := by
  simp only [handleChunkData]
  split_ifs <;> simp [mShutdown] <;>
    by_cases h : t.socketOpen <;> simp [h]

theorem slots_handleChunkLen (t : CState) (err : Err) :
    (handleChunkLen t err).1.hasErr = t.hasErr ∧
    (handleChunkLen t err).1.hasEof = t.hasEof := by
  simp only [handleChunkLen]
  split_ifs
  · simp [mShutdown]
    by_cases h : t.socketOpen <;> simp [h]
  · simp
  · have h := slots_handleChunkData
      { t with buffer := t.buffer.drop (parseChunkLength t.buffer).1 }
      Err.ok (parseChunkLength t.buffer).2
    simpa using h
  · simp [mShutdown]
    by_cases h : t.socketOpen <;> simp [h]
  · simp
  · simp [mShutdown]
    by_cases h : t.socketOpen <;> simp [h]

theorem slots_handleTimeout (t : CState) (err : Err) (m : Bool) :
    (handleTimeout t err m).1.hasErr = t.hasErr ∧
    (handleTimeout t err m).1.hasEof = t.hasEof := by
  simp only [handleTimeout]
  split_ifs <;> simp [mShutdown] <;>
    by_cases h : t.socketOpen <;> simp [h]

/-- Each step preserves which callback slots are registered. -/
theorem step_slots (s : CState) (e : Event) :
    (step s e).1.hasErr = s.hasErr ∧ (step s e).1.hasEof = s.hasEof := by
  by_cases hcr : s.crashed = true
  · simp [step, hcr]
  · have hc : s.crashed = false := by simpa using hcr
    cases e with
    | resolved err n =>
      cases hp : s.pending with
      | none => simp [step, hc, hp]
      | some ph =>
        cases ph <;> simp only [step, hc, hp, Bool.false_eq_true, if_false] <;>
          first
          | exact slots_handleResolve s err n
          | exact ⟨rfl, rfl⟩
          | exact ⟨trivial, trivial⟩
    | connected err =>
      cases hp : s.pending with
      | none => simp [step, hc, hp]
      | some ph =>
        cases ph <;> simp only [step, hc, hp, Bool.false_eq_true, if_false] <;>
          first
          | exact slots_handleConnect s err _
          | exact ⟨rfl, rfl⟩
          | exact ⟨trivial, trivial⟩
    | wrote err =>
      cases hp : s.pending with
      | none => simp [step, hc, hp]
      | some ph =>
        cases ph <;> simp only [step, hc, hp, Bool.false_eq_true, if_false] <;>
          first
          | exact slots_handleWriteReq s err
          | exact ⟨rfl, rfl⟩
          | exact ⟨trivial, trivial⟩
    | wroteData err =>
      simp only [step, hc, Bool.false_eq_true, if_false]
      exact slots_handleWriteData s err
    | readDone err bytes =>
      cases hp : s.pending with
      | none => simp [step, hc, hp]
      | some ph =>
        cases ph <;> simp only [step, hc, hp, Bool.false_eq_true, if_false] <;>
          first
          | exact ⟨(slots_handleReadStatus _ err).1, (slots_handleReadStatus _ err).2⟩
          | exact ⟨(slots_handleReadHeaders _ err).1, (slots_handleReadHeaders _ err).2⟩
          | exact ⟨(slots_handleReadData _ err).1, (slots_handleReadData _ err).2⟩
          | exact ⟨(slots_handleChunkLen _ err).1, (slots_handleChunkLen _ err).2⟩
          | exact ⟨(slots_handleChunkData _ err _).1, (slots_handleChunkData _ err _).2⟩
          | exact ⟨rfl, rfl⟩
          | exact ⟨trivial, trivial⟩
    | timerFired err m =>
      simp only [step, hc, Bool.false_eq_true, if_false]
      exact slots_handleTimeout s err m

theorem runStepsOuts_cons (s : CState) (e : Event) (es : List Event) :
    runStepsOuts s (e :: es) = (step s e).2 :: runStepsOuts (step s e).1 es := by
  simp [runStepsOuts]

theorem runUntilClosed_cons (s : CState) (e : Event) (es : List Event) :
    runUntilClosed s (e :: es)
      = if (step s e).1.closedF then (step s e).2
        else (step s e).2 ++ runUntilClosed (step s e).1 es := by
  simp [runUntilClosed]

theorem step_closed_mono (s : CState) (e : Event)
    (he : s.hasErr = true) (hf : s.hasEof = true) (h : s.closedF = true) :
    (step s e).1.closedF = true := by
  rcases step_facts s e he hf with ⟨h1, _⟩ | ⟨h1, _⟩
  · rw [h1, h]
  · exact h1

theorem runAll_closed_mono (s : CState) (es : List Event)
    (he : s.hasErr = true) (hf : s.hasEof = true) (h : s.closedF = true) :
    (runAll s es).2.closedF = true := by
  induction es generalizing s with
  | nil => simpa [runAll] using h
  | cons e es ih =>
    rw [runAll_cons]
    obtain ⟨hse, hsf⟩ := step_slots s e
    exact ih (step s e).1 (hse.trans he) (hsf.trans hf)
      (step_closed_mono s e he hf h)

/-- Every step of every execution (with both terminal slots registered)
emits at most one terminal callback. -/
theorem run_tc_le (s : CState) (es : List Event)
    (he : s.hasErr = true) (hf : s.hasEof = true) :
    ∀ o ∈ runStepsOuts s es, tc o ≤ 1 := by
  induction es generalizing s with
  | nil => intro o ho; simp [runStepsOuts] at ho
  | cons e es ih =>
    intro o ho
    rw [runStepsOuts_cons] at ho
    obtain ⟨hse, hsf⟩ := step_slots s e
    rcases List.mem_cons.mp ho with ho | ho
    · rcases step_facts s e he hf with ⟨_, hx⟩ | ⟨_, hx⟩ <;> rw [ho, hx] <;> omega
    · exact ih (step s e).1 (hse.trans he) (hsf.trans hf) o ho

/-- C3: in every execution of a connection whose error and end-of-stream
callback slots are registered and which has not yet shut down, (i) no single
handler invocation emits more than one terminal callback (never both for the
same terminal event); (ii) if the execution reaches the shutdown state,
exactly one terminal callback has been emitted up to and including the
closing step (never neither); and (iii) if it never reaches the shutdown
state, no terminal callback is emitted at all. -/
theorem c3_exactly_one_terminal (s : CState) (es : List Event)
    (he : s.hasErr = true) (hf : s.hasEof = true) (hnc : s.closedF = false) :
    (∀ o ∈ runStepsOuts s es, tc o ≤ 1) ∧
    ((runAll s es).2.closedF = true → tc (runUntilClosed s es) = 1) ∧
    ((runAll s es).2.closedF = false → tc (runAll s es).1 = 0) := by
  refine ⟨run_tc_le s es he hf, ?_⟩
  induction es generalizing s with
  | nil =>
    refine ⟨?_, ?_⟩
    · intro h
      rw [runAll] at h
      rw [hnc] at h
      exact absurd h (by simp)
    · intro h
      simp [runAll, runUntilClosed, tc_nil]
  | cons e es ih =>
    obtain ⟨hse, hsf⟩ := step_slots s e
    have he' : (step s e).1.hasErr = true := hse.trans he
    have hf' : (step s e).1.hasEof = true := hsf.trans hf
    rcases step_facts s e he hf with ⟨h1, h2⟩ | ⟨h1, h2⟩
    · -- non-closing step: no terminal emitted here
      have hnc' : (step s e).1.closedF = false := h1.trans hnc
      obtain ⟨ih2, ih3⟩ := ih (step s e).1 he' hf' hnc'
      refine ⟨?_, ?_⟩
      · intro hcl
        rw [runAll_cons] at hcl
        rw [runUntilClosed_cons, hnc', if_neg (by simp), tc_append, h2,
          ih2 hcl]
      · intro hcl
        rw [runAll_cons] at hcl ⊢
        simp only [tc_append, h2, Nat.zero_add]
        exact ih3 hcl
    · -- closing step: exactly one terminal here, execution stays closed
      have hclosed : (runAll (step s e).1 es).2.closedF = true :=
        runAll_closed_mono _ es he' hf' h1
      refine ⟨?_, ?_⟩
      · intro hcl
        rw [runUntilClosed_cons, if_pos (by rw [h1]), h2]
      · intro hcl
        rw [runAll_cons] at hcl
        exact absurd hclosed (by rw [hcl]; simp)

/-- Witness for C3: a resolve failure closes the connection at the first
step with exactly one terminal callback (the error callback). -/
theorem c3_exactly_one_terminal_witness :
    (runAll sResolving [Event.resolved (Err.other 1) 0]).2.closedF = true ∧
    tc (runUntilClosed sResolving [Event.resolved (Err.other 1) 0]) = 1 := by
  have h := c3_exactly_one_terminal sResolving [Event.resolved (Err.other 1) 0]
    (by decide) (by decide) (by decide)
  have hcl : (runAll sResolving [Event.resolved (Err.other 1) 0]).2.closedF = true := by
    decide
  exact ⟨hcl, h.2.1 hcl⟩
